import Mathlib

/-!
Verification of the Concourse "Resource Engine" (mthaddon/concourse) against
its natural-language specification.

The development is a shallow embedding of `atc/db/resource.go` and of the
`ListAllJobsWatcher` subscriber pipeline.  Database tables are modelled as
lists of row structures; a SQL `QueryRow` with no `ORDER BY` is modelled as
taking the first matching row in table (insertion) order; `md5` over the
canonical version JSON is modelled as the identity on the canonical blob
(an injective digest).  Every definition is executable so that theorems can
be evaluated on concrete states.
-/

namespace Concourse

/-- A version is a JSON object mapping string keys to string values
(Go type `atc.Version = map[string]string`). -/
abbrev Version := List (String × String)

/-- A stored JSON blob: either the canonical encoding of a version object, or
a payload that does not unmarshal into `map[string]string`. -/
inductive Blob where
  | obj (kvs : Version)
  | malformed (raw : String)
  deriving Repr, DecidableEq

/-- Model of `json.Unmarshal` of a stored blob into an `atc.Version`: succeeds exactly
on well-formed version objects. -/
def parseVersion : Blob → Option Version
  | .obj kvs => some kvs
  | .malformed _ => none

/-- Postgres `md5(canonical_json)` digest, modelled as the canonical blob
itself (injective digest abstraction). -/
def md5 (b : Blob) : Blob := b

/-- jsonb containment `version @> filter` for version objects (the filter is
always an object in `Versions`). -/
def versionContains (b : Blob) (filter : Version) : Bool :=
  match b with
  | .obj kvs => filter.all (fun kv => kv ∈ kvs)
  | .malformed _ => false

/-- A row of the `builds` table (only the columns the resource engine reads). -/
structure BuildRow where
  id : Nat
  name : String
  resourceId : Option Nat
  jobId : Option Nat
  completed : Bool
  manuallyTriggered : Bool
  deriving Repr, DecidableEq

/-- A row of the `resources` table. -/
structure ResourceRow where
  id : Nat
  name : String
  resourceConfigId : Option Nat
  resourceConfigScopeId : Option Nat
  buildId : Option Nat
  deriving Repr, DecidableEq

/-- A row of the `resource_pins` table (`version` is nullable because the
upsert in `PinVersion` copies it from a scalar subquery). -/
structure PinRow where
  resourceId : Nat
  version : Option Blob
  commentText : String
  config : Bool
  deriving Repr, DecidableEq

/-- A row of the `resource_config_versions` table; `version_md5` is derived
as `md5 version`. -/
structure RcvRow where
  id : Nat
  resourceConfigScopeId : Nat
  version : Blob
  metadata : Option String
  checkOrder : Nat
  deriving Repr, DecidableEq

/-- A row of the `resource_disabled_versions` table. -/
structure DisabledRow where
  resourceId : Nat
  versionMd5 : Blob
  deriving Repr, DecidableEq

/-- A row of the `jobs` table; `scheduleRequested` is a timestamp (`now()`
values are passed in explicitly). -/
structure JobRow where
  id : Nat
  name : String
  scheduleRequested : Nat
  deriving Repr, DecidableEq

/-- A row of the `job_inputs` table. -/
structure JobInputRow where
  jobId : Nat
  resourceId : Nat
  deriving Repr, DecidableEq

/-- A row of `build_resource_config_version_inputs` or `_outputs`. -/
structure BuildEdgeRow where
  buildId : Nat
  resourceId : Nat
  versionMd5 : Blob
  deriving Repr, DecidableEq

/-- A row of the `build_pipes` table. -/
structure BuildPipeRow where
  fromBuildId : Nat
  toBuildId : Nat
  deriving Repr, DecidableEq

/-- The database state visible to the resource engine, plus the list of
notification-bus payloads posted so far (so that "no notification posted"
is expressible). -/
structure Db where
  builds : List BuildRow
  resources : List ResourceRow
  resourcePins : List PinRow
  resourceConfigVersions : List RcvRow
  resourceDisabledVersions : List DisabledRow
  jobs : List JobRow
  jobInputs : List JobInputRow
  buildInputs : List BuildEdgeRow
  buildOutputs : List BuildEdgeRow
  buildPipes : List BuildPipeRow
  notifications : List String
  deriving Repr, DecidableEq

/-- Classified database-layer errors surfaced by the resource operations. -/
inductive DbError where
  | nonOneRowAffected (n : Nat)
  | pinnedThroughConfig
  deriving Repr, DecidableEq

/-! ### Sorting (model of SQL `ORDER BY`)

`List.mergeSort` does not reduce in the kernel, so `ORDER BY` is modelled by
a small insertion sort with the permutation and sortedness lemmas needed for
the pagination claims. -/

/-- Insert `a` into `l`, keeping `l` sorted with respect to `le`. -/
def insertBy (le : α → α → Bool) (a : α) : List α → List α
  | [] => [a]
  | b :: l => if le a b then a :: b :: l else b :: insertBy le a l

/-- Insertion sort with respect to `le`. -/
def sortBy (le : α → α → Bool) : List α → List α
  | [] => []
  | a :: l => insertBy le a (sortBy le l)

theorem insertBy_perm (le : α → α → Bool) (a : α) (l : List α) :
    (insertBy le a l).Perm (a :: l) := by
  induction l with
  | nil => simp [insertBy]
  | cons b l ih =>
    simp only [insertBy]
    by_cases h : le a b
    · simp [h]
    · rw [if_neg h]
      exact (ih.cons b).trans (List.Perm.swap a b l)

theorem sortBy_perm (le : α → α → Bool) (l : List α) :
    (sortBy le l).Perm l := by
  induction l with
  | nil => exact List.Perm.refl _
  | cons a l ih => exact (insertBy_perm le a (sortBy le l)).trans (ih.cons a)

theorem mem_sortBy (le : α → α → Bool) (l : List α) (x : α) :
    x ∈ sortBy le l ↔ x ∈ l :=
  (sortBy_perm le l).mem_iff

theorem pairwise_insertBy (le : α → α → Bool)
    (htrans : ∀ x y z, le x y = true → le y z = true → le x z = true)
    (htot : ∀ x y, le x y = true ∨ le y x = true)
    (a : α) (l : List α) (h : l.Pairwise (fun x y => le x y = true)) :
    (insertBy le a l).Pairwise (fun x y => le x y = true) := by
  induction l with
  | nil => simp [insertBy]
  | cons b l ih =>
    rcases List.pairwise_cons.mp h with ⟨hb, hl⟩
    simp only [insertBy]
    by_cases hab : le a b = true
    · rw [if_pos hab]
      refine List.pairwise_cons.mpr ⟨?_, h⟩
      intro x hx
      rcases List.mem_cons.mp hx with hxa | hx
      · exact hxa ▸ hab
      · exact htrans a b x hab (hb x hx)
    · have hba : le b a = true := (htot a b).resolve_left hab
      rw [if_neg hab]
      refine List.pairwise_cons.mpr ⟨?_, ih hl⟩
      intro x hx
      rcases List.mem_cons.mp ((insertBy_perm le a l).mem_iff.mp hx) with hxa | hx
      · exact hxa ▸ hba
      · exact hb x hx

theorem pairwise_sortBy (le : α → α → Bool)
    (htrans : ∀ x y z, le x y = true → le y z = true → le x z = true)
    (htot : ∀ x y, le x y = true ∨ le y x = true)
    (l : List α) :
    (sortBy le l).Pairwise (fun x y => le x y = true) := by
  induction l with
  | nil => simp [sortBy]
  | cons a l ih => exact pairwise_insertBy le htrans htot a (sortBy le l) ih

/-! ### `requestScheduleForJobsUsingResource` -/

/-- The `SELECT DISTINCT job_id FROM job_inputs WHERE resource_id = $1
ORDER BY job_id DESC` query that fixes the update order. -/
def jobIdsUsingResource (db : Db) (resourceId : Nat) : List Nat :=
  sortBy (fun a b => Nat.ble b a)
    (((db.jobInputs.filter (fun ji => ji.resourceId == resourceId)).map (·.jobId)).dedup)

/-- One `UPDATE jobs SET schedule_requested = now() WHERE id = $j`. -/
def bumpJob (db : Db) (jobId now : Nat) : Db :=
  { db with jobs := db.jobs.map fun j =>
      if j.id == jobId then { j with scheduleRequested := now } else j }

/-- Model of `requestScheduleForJobsUsingResource`: reads the distinct referencing job
ids in descending order, then updates each of those jobs in that order
(`now` is the transaction's `now()` value). -/
def requestScheduleForJobsUsingResource (db : Db) (resourceId now : Nat) : Db :=
  (jobIdsUsingResource db resourceId).foldl (fun acc j => bumpJob acc j now) db

/-! ### `SetResourceConfigScope` -/

/-- The `WHERE` clause of the conditional `UPDATE resources` in
`SetResourceConfigScope`: the row must match the id and either hold a NULL
config/scope or one different from the new scope's. -/
def scopeUpdateCond (rid configId scopeId : Nat) (r : ResourceRow) : Bool :=
  r.id == rid &&
    (r.resourceConfigId == none || r.resourceConfigScopeId == none ||
     r.resourceConfigId != some configId || r.resourceConfigScopeId != some scopeId)

/-- Model of `resource.setResourceConfigScopeInTransaction`; also returns the number
of rows affected by the conditional update (the schedule bump runs only when
it is positive). -/
def setResourceConfigScopeInTransaction (db : Db) (rid configId scopeId now : Nat) :
    Db × Nat :=
  let affected := db.resources.countP (fun r => scopeUpdateCond rid configId scopeId r)
  let db1 := { db with resources := db.resources.map fun r =>
      if scopeUpdateCond rid configId scopeId r then
        { r with resourceConfigId := some configId, resourceConfigScopeId := some scopeId }
      else r }
  if 0 < affected then (requestScheduleForJobsUsingResource db1 rid now, affected)
  else (db1, affected)

/-- Model of `resource.SetResourceConfigScope` (the commit wrapper around the
transactional body; no error source exists in the model). -/
def setResourceConfigScope (db : Db) (rid configId scopeId now : Nat) : Db :=
  (setResourceConfigScopeInTransaction db rid configId scopeId now).1

/-! ### `CreateBuild` -/

/-- Model of `CheckBuildName` constant. -/
def CheckBuildName : String := "check"

/-- The `atc.ComponentBuildTracker` notification channel name. -/
def ComponentBuildTracker : String := "build_tracker"

/-- Modelled from the spec: `createStartedBuild` (defined in `atc/db/build.go`,
which is not part of the excerpt) inserts a started — hence not completed —
build row with the given name, manual-trigger flag and `resource_id` extra
value ("insert a started build row with name check, link resource→build").
The serial id handed out by the database is modelled as max id + 1. -/
def createStartedBuild (db : Db) (name : String) (resourceId : Nat)
    (manuallyTriggered : Bool) : Db × Nat :=
  let newId := db.builds.foldr (fun b m => max b.id m) 0 + 1
  ({ db with builds :=
      db.builds ++ [⟨newId, name, some resourceId, none, false, manuallyTriggered⟩] },
    newId)

/-- Model of `resource.CreateBuild`, returning (state, created build id, created?).
The existing-build probe `SELECT completed FROM builds WHERE resource_id=$1`
has no `ORDER BY`; its `QueryRow` is modelled as the first matching row in
table order.  On the create path the build row is inserted, `resources.build_id`
is updated, the transaction commits and a `ComponentBuildTracker` notification
is posted (the model has no failing bus, so the error result is omitted). -/
def createBuild (db : Db) (rid : Nat) (manuallyTriggered : Bool) :
    Db × Option Nat × Bool :=
  let proceed : Bool :=
    if manuallyTriggered then true
    else
      match db.builds.find? (fun b => b.resourceId == some rid) with
      | none => true          -- sql.ErrNoRows: noBuild = true
      | some b => b.completed -- !noBuild && !completed → no-op
  if proceed then
    let res := createStartedBuild db CheckBuildName rid manuallyTriggered
    let db1 : Db := res.1
    let newId : Nat := res.2
    let db2 := { db1 with resources := db1.resources.map fun (r : ResourceRow) =>
        if r.id == rid then { r with buildId := some newId } else r }
    let db3 := { db2 with notifications := db2.notifications ++ [ComponentBuildTracker] }
    (db3, some newId, true)
  else
    (db, none, false)

/-- Modelled from the spec: a check build completes externally
("running ──(external completion)──▶ completed"); the build row's
`completed` flag is set by the build-lifecycle code outside the excerpt. -/
def completeBuild (db : Db) (buildId : Nat) : Db :=
  { db with builds := db.builds.map fun b =>
      if b.id == buildId then { b with completed := true } else b }

/-! ### Pin / Unpin / Enable / Disable -/

/-- The upsert statement of `PinVersion`
(`INSERT INTO resource_pins ... ON CONFLICT (resource_id) DO UPDATE SET
version = EXCLUDED.version`): returns the new `resource_pins` table and the
number of rows affected.  The inserted `version` is the scalar subquery over
`resource_config_versions` (NULL when `rcvID` does not exist); an upsert of a
single `VALUES` row always affects exactly one row. -/
def pinUpsert (db : Db) (rid rcvID : Nat) : List PinRow × Nat :=
  let newVersion := (db.resourceConfigVersions.find? (fun rcv => rcv.id == rcvID)).map (·.version)
  if db.resourcePins.any (fun p => p.resourceId == rid) then
    (db.resourcePins.map fun p =>
        if p.resourceId == rid then { p with version := newVersion } else p, 1)
  else
    (db.resourcePins ++ [⟨rid, newVersion, "", false⟩], 1)

/-- Model of `resource.PinVersion`: first the `pinned_through_config` probe, then the
upsert; on `rowsAffected != 1` the Go code returns `(false, nil)` (not
`NonOneRowAffectedError`); on success the schedule bump runs and the
transaction commits, returning `(true, nil)`. -/
def pinVersion (db : Db) (rid rcvID now : Nat) : Db × Bool × Option DbError :=
  if db.resourcePins.any (fun p => p.resourceId == rid && p.config) then
    (db, false, some .pinnedThroughConfig)
  else
    let res := pinUpsert db rid rcvID
    if res.2 != 1 then (db, false, none)
    else
      let db1 := { db with resourcePins := res.1 }
      (requestScheduleForJobsUsingResource db1 rid now, true, none)

/-- Rows affected by the `DELETE FROM resource_pins WHERE resource_id = $1`
of `UnpinVersion`. -/
def unpinAffected (db : Db) (rid : Nat) : Nat :=
  db.resourcePins.countP (fun p => p.resourceId == rid)

/-- Model of `resource.UnpinVersion`: must delete exactly one pin row, otherwise
`NonOneRowAffectedError` and rollback. -/
def unpinVersion (db : Db) (rid now : Nat) : Db × Option DbError :=
  let rowsAffected := unpinAffected db rid
  if rowsAffected != 1 then (db, some (.nonOneRowAffected rowsAffected))
  else
    let db1 := { db with resourcePins :=
        db.resourcePins.filter (fun p => !(p.resourceId == rid)) }
    (requestScheduleForJobsUsingResource db1 rid now, none)

/-- The toggle statement of `toggleVersion`: for enable, the `DELETE FROM
resource_disabled_versions` keyed on the scalar subquery for the rcv's
`version_md5` (NULL — matching nothing — when the rcv is absent); for
disable, the `INSERT ... SELECT` inserting one row per matching rcv row.
Returns the new `resource_disabled_versions` table and the rows affected. -/
def toggleStatement (db : Db) (rid rcvID : Nat) (enable : Bool) :
    List DisabledRow × Nat :=
  if enable then
    let md := (db.resourceConfigVersions.find? (fun rcv => rcv.id == rcvID)).map
      (fun rcv => md5 rcv.version)
    let deleted := db.resourceDisabledVersions.countP
      (fun d => d.resourceId == rid && some d.versionMd5 == md)
    (db.resourceDisabledVersions.filter
      (fun d => !(d.resourceId == rid && some d.versionMd5 == md)), deleted)
  else
    let sel := (db.resourceConfigVersions.filter (fun rcv => rcv.id == rcvID)).map
      (fun rcv => (⟨rid, md5 rcv.version⟩ : DisabledRow))
    (db.resourceDisabledVersions ++ sel, sel.length)

/-- Model of `resource.toggleVersion`: runs the toggle statement, demands exactly one
affected row (`NonOneRowAffectedError` and rollback otherwise), then bumps
the schedule and commits. -/
def toggleVersion (db : Db) (rid rcvID : Nat) (enable : Bool) (now : Nat) :
    Db × Option DbError :=
  let res := toggleStatement db rid rcvID enable
  if res.2 != 1 then (db, some (.nonOneRowAffected res.2))
  else
    let db1 := { db with resourceDisabledVersions := res.1 }
    (requestScheduleForJobsUsingResource db1 rid now, none)

/-- Model of `resource.EnableVersion`. -/
def enableVersion (db : Db) (rid rcvID now : Nat) : Db × Option DbError :=
  toggleVersion db rid rcvID true now

/-- Model of `resource.DisableVersion`. -/
def disableVersion (db : Db) (rid rcvID now : Nat) : Db × Option DbError :=
  toggleVersion db rid rcvID false now

/-! ### `UpdateMetadata` and the pin projection -/

/-- The number of `resource_config_versions` rows matched by the
`UpdateMetadata` statement `(resource_config_scope_id, md5(version_json))`. -/
def updateMetadataMatches (db : Db) (scopeId : Nat) (version : Blob) : Nat :=
  db.resourceConfigVersions.countP
    (fun rcv => rcv.resourceConfigScopeId == scopeId && md5 rcv.version == md5 version)

/-- Model of `resource.UpdateMetadata`.  The Go code discards the `Exec` result and
compares the `Exec` error with `sql.ErrNoRows` — which `Exec` never returns —
so the affected-row count is never consulted and the function returns
`(true, nil)` whenever the statement executes. -/
def updateMetadata (db : Db) (scopeId : Nat) (version : Blob) (metadata : String) :
    Db × Bool :=
  ({ db with resourceConfigVersions := db.resourceConfigVersions.map fun rcv =>
      if rcv.resourceConfigScopeId == scopeId && md5 rcv.version == md5 version then
        { rcv with metadata := some metadata }
      else rcv },
    true)

/-- The pin columns as loaded by `scanResource` through
`LEFT JOIN resource_pins rp ON rp.resource_id = r.id` (first matching row in
table order): the `(configPinnedVersion, apiPinnedVersion)` pair. -/
def scannedPin (db : Db) (rid : Nat) : Option Blob × Option Blob :=
  match db.resourcePins.find? (fun p => p.resourceId == rid) with
  | none => (none, none)
  | some p =>
    match p.version with
    | none => (none, none)
    | some v => if p.config then (some v, none) else (none, some v)

/-- Model of `resource.CurrentPinnedVersion`: the config pin overrides the API pin. -/
def currentPinnedVersion (db : Db) (rid : Nat) : Option Blob :=
  match scannedPin db rid with
  | (some v, _) => some v
  | (none, some v) => some v
  | (none, none) => none

/-! ### `Versions` (pagination over the version ledger) -/

/-- A `Page` parameter: `limit` plus at most one of the `From`/`To` cursors. -/
structure Page where
  from? : Option Nat
  to? : Option Nat
  limit : Nat
  deriving Repr, DecidableEq

/-- One row of the `Versions` SQL result:
`v.id, v.version, v.metadata, v.check_order, enabled`. -/
structure VersionsRow where
  id : Nat
  version : Blob
  metadata : Option String
  checkOrder : Nat
  enabled : Bool
  deriving Repr, DecidableEq

/-- Model of `check_order DESC` comparison for `ORDER BY`. -/
def coDescLe (a b : VersionsRow) : Bool := Nat.ble b.checkOrder a.checkOrder

/-- Model of `check_order ASC` comparison for `ORDER BY`. -/
def coAscLe (a b : VersionsRow) : Bool := Nat.ble a.checkOrder b.checkOrder

/-- The base query of `Versions`: every `resource_config_versions` row in the
resource's config scope, with the computed `Enabled` flag (`NOT EXISTS` a
matching `resource_disabled_versions` row for this resource). -/
def scopeVersionRows (db : Db) (rid : Nat) : List VersionsRow :=
  match db.resources.find? (fun r => r.id == rid) with
  | none => []
  | some r =>
    (db.resourceConfigVersions.filter
        (fun v => some v.resourceConfigScopeId == r.resourceConfigScopeId)).map
      (fun v => ⟨v.id, v.version, v.metadata, v.checkOrder,
        !(db.resourceDisabledVersions.any
          (fun d => d.resourceId == rid && d.versionMd5 == md5 v.version))⟩)

/-- The scalar subquery
`(SELECT check_order FROM resource_config_versions WHERE id = $2)`. -/
def checkOrderOf (db : Db) (rcvID : Nat) : Option Nat :=
  (db.resourceConfigVersions.find? (fun v => v.id == rcvID)).map (·.checkOrder)

/-- The scope rows that additionally match the `version @> $filter`
predicate. -/
def filteredScopeRows (db : Db) (rid : Nat) (filter : Version) : List VersionsRow :=
  (scopeVersionRows db rid).filter (fun v => versionContains v.version filter)

/-- The `check_order >= cursor` bound of the `from`-case (a missing cursor
row yields a NULL comparison that matches nothing). -/
def versionsFromBound (db : Db) (rid fromId : Nat) (filter : Version) :
    List VersionsRow :=
  (filteredScopeRows db rid filter).filter (fun v =>
    match checkOrderOf db fromId with
    | some co => Nat.ble co v.checkOrder
    | none => false)

/-- The `check_order <= cursor` bound of the `to`-case. -/
def versionsToBound (db : Db) (rid toId : Nat) (filter : Version) :
    List VersionsRow :=
  (filteredScopeRows db rid filter).filter (fun v =>
    match checkOrderOf db toId with
    | some co => Nat.ble v.checkOrder co
    | none => false)

/-- The inner sub-select of the `from`-case of `Versions`:
`check_order >= cursor`, `ORDER BY check_order ASC`, `LIMIT`. -/
def versionsFromInner (db : Db) (rid fromId limit : Nat) (filter : Version) :
    List VersionsRow :=
  (sortBy coAscLe (versionsFromBound db rid fromId filter)).take limit

/-- The SQL rows produced by `resource.Versions` for the three cursor cases.
The `from` case wraps its ascending inner select in an outer
`ORDER BY sub.check_order DESC`; the `to` case bounds by
`check_order <= cursor` descending; no cursor returns the latest page. -/
def versionsRows (db : Db) (rid : Nat) (page : Page) (filter : Version) :
    List VersionsRow :=
  match page.from?, page.to? with
  | some fromId, _ =>
    sortBy coDescLe (versionsFromInner db rid fromId page.limit filter)
  | none, some toId =>
    (sortBy coDescLe (versionsToBound db rid toId filter)).take page.limit
  | none, none =>
    (sortBy coDescLe (filteredScopeRows db rid filter)).take page.limit

/-- Model of `resource.Versions` end-to-end: the scan loop unmarshals each row's
version blob and fails on a malformed one; on success the rows are delivered
in query order (the model keeps the full SQL row). -/
def versions (db : Db) (rid : Nat) (page : Page) (filter : Version) :
    Option (List VersionsRow) :=
  let rows := versionsRows db rid page filter
  if rows.all (fun v => (parseVersion v.version).isSome) then some rows else none

/-! ### Causality engine -/

/-- Which of the two recursive CTEs / updater pairs is running. -/
inductive WalkDir where
  | downstream
  | upstream
  deriving Repr, DecidableEq

/-- One step of the recursive CTE term: from the frontier, the builds reached
through `build_pipes`, guarded by the *parent* build having some input of a
resource other than the root's (`i.resource_id != $1`, joined on
`bi.build_id`). -/
def causalityStep (db : Db) (rid : Nat) (dir : WalkDir) (frontier : List Nat) :
    List Nat :=
  (frontier.flatMap (fun b =>
    if db.buildInputs.any (fun i => i.buildId == b && i.resourceId != rid) then
      match dir with
      | .downstream => (db.buildPipes.filter (fun p => p.fromBuildId == b)).map (·.toBuildId)
      | .upstream => (db.buildPipes.filter (fun p => p.toBuildId == b)).map (·.fromBuildId)
    else [])).dedup

/-- Fuelled iteration of the recursive CTE.  The CTE terminates because
`build_pipes` is acyclic; the model reaches the same fixpoint within
`|build_pipes| + 1` rounds because every productive round discovers at least
one new build through a pipe edge. -/
def causalityIter (db : Db) (rid : Nat) (dir : WalkDir) :
    Nat → List Nat → List Nat → List Nat
  | 0, acc, _ => acc
  | fuel + 1, acc, frontier =>
    let next := (causalityStep db rid dir frontier).filter (fun b => !acc.contains b)
    if next.isEmpty then acc else causalityIter db rid dir fuel (acc ++ next) next

/-- Model of `getCausalityBuilds` running one of the two recursive CTEs for the root
`(resource_id, version_md5)` pair. -/
def causalityBuilds (db : Db) (rid : Nat) (versionMd5 : Blob) (dir : WalkDir) :
    List Nat :=
  let base := match dir with
    | .downstream =>
      ((db.buildInputs.filter
        (fun i => i.resourceId == rid && i.versionMd5 == versionMd5)).map (·.buildId)).dedup
    | .upstream =>
      ((db.buildOutputs.filter
        (fun i => i.resourceId == rid && i.versionMd5 == versionMd5)).map (·.buildId)).dedup
  causalityIter db rid dir (db.buildPipes.length + 1) base base

/-- An `atc.CausalityBuild` node.  Go links nodes through shared pointers;
the model stores edge endpoints as ids (the "node arena" view). -/
structure CausalityBuild where
  id : Nat
  name : String
  jobId : Nat
  jobName : String
  inputs : List Nat
  outputs : List Nat
  deriving Repr, DecidableEq

/-- An `atc.CausalityResourceVersion` node, edges as build ids. -/
structure CausalityResourceVersion where
  resourceId : Nat
  resourceVersionId : Nat
  resourceName : String
  version : Version
  inputTo : List Nat
  outputOf : List Nat
  deriving Repr, DecidableEq

/-- The two node maps of `getCausalityResourceVersions`
(`builds : map[int]*CausalityBuild`, `resourceVersions :
map[int]*CausalityResourceVersion`). -/
structure CausalityArena where
  builds : List (Nat × CausalityBuild)
  rvs : List (Nat × CausalityResourceVersion)
  deriving Repr, DecidableEq

def arenaFindBuild (a : CausalityArena) (buildId : Nat) : Option CausalityBuild :=
  (a.builds.find? (fun p => p.1 == buildId)).map (·.2)

def arenaFindRv (a : CausalityArena) (rcvId : Nat) : Option CausalityResourceVersion :=
  (a.rvs.find? (fun p => p.1 == rcvId)).map (·.2)

def arenaSetBuild (a : CausalityArena) (buildId : Nat) (b : CausalityBuild) :
    CausalityArena :=
  if a.builds.any (fun p => p.1 == buildId) then
    { a with builds := a.builds.map (fun p => if p.1 == buildId then (buildId, b) else p) }
  else
    { a with builds := a.builds ++ [(buildId, b)] }

def arenaSetRv (a : CausalityArena) (rcvId : Nat) (rv : CausalityResourceVersion) :
    CausalityArena :=
  if a.rvs.any (fun p => p.1 == rcvId) then
    { a with rvs := a.rvs.map (fun p => if p.1 == rcvId then (rcvId, rv) else p) }
  else
    { a with rvs := a.rvs ++ [(rcvId, rv)] }

/-- The build/job node query of `getCausalityResourceVersions`
(`builds b INNER JOIN jobs j ON b.job_id = j.id WHERE b.id IN buildIDs`),
deduplicated as in the Go loop. -/
def causalityBuildNodes (db : Db) (buildIDs : List Nat) :
    List (Nat × CausalityBuild) :=
  (db.builds.filter (fun b => buildIDs.contains b.id)).foldl
    (fun acc b =>
      match b.jobId with
      | none => acc
      | some jid =>
        match db.jobs.find? (fun j => j.id == jid) with
        | none => acc
        | some j =>
          if acc.any (fun p => p.1 == b.id) then acc
          else acc ++ [(b.id, ⟨b.id, b.name, jid, j.name, [], []⟩)])
    []

/-- A row of the input/output joins in `getCausalityResourceVersions`:
`(r.id, rcv.id, r.name, rcv.version, edge.build_id)`. -/
structure CausalityEdgeRow where
  resourceId : Nat
  rcvId : Nat
  resourceName : String
  version : Blob
  buildId : Nat
  deriving Repr, DecidableEq

/-- The join of build input/output edges with `resources` and
`resource_config_versions` (matched by `version_md5` within the resource's
scope) for the builds under consideration. -/
def causalityEdgeRows (db : Db) (edges : List BuildEdgeRow) (buildIDs : List Nat) :
    List CausalityEdgeRow :=
  (edges.filter (fun e => buildIDs.contains e.buildId)).flatMap (fun e =>
    (db.resources.filter (fun r => r.id == e.resourceId)).flatMap (fun r =>
      (db.resourceConfigVersions.filter (fun rcv =>
          md5 rcv.version == e.versionMd5 &&
          some rcv.resourceConfigScopeId == r.resourceConfigScopeId)).map (fun rcv =>
        ⟨r.id, rcv.id, r.name, rcv.version, e.buildId⟩)))

/-- The `updateInput` mutation: for the downstream walk `rv.InputTo += build`,
for the upstream walk `build.Inputs += rv`.  When the build id is absent from
the node map the Go code would dereference a nil pointer (builds without a
job row are dropped by the inner join); the model leaves the arena
unchanged in that case. -/
def applyInputUpdater (dir : WalkDir) (a : CausalityArena)
    (rv : CausalityResourceVersion) (buildId : Nat) :
    CausalityArena × CausalityResourceVersion :=
  match dir with
  | .downstream => (a, { rv with inputTo := rv.inputTo ++ [buildId] })
  | .upstream =>
    match arenaFindBuild a buildId with
    | some b =>
      (arenaSetBuild a buildId { b with inputs := b.inputs ++ [rv.resourceVersionId] }, rv)
    | none => (a, rv)

/-- The `updateOutput` mutation: for the downstream walk
`build.Outputs += rv`, for the upstream walk `rv.OutputOf += build`. -/
def applyOutputUpdater (dir : WalkDir) (a : CausalityArena)
    (rv : CausalityResourceVersion) (buildId : Nat) :
    CausalityArena × CausalityResourceVersion :=
  match dir with
  | .downstream =>
    match arenaFindBuild a buildId with
    | some b =>
      (arenaSetBuild a buildId { b with outputs := b.outputs ++ [rv.resourceVersionId] }, rv)
    | none => (a, rv)
  | .upstream => (a, { rv with outputOf := rv.outputOf ++ [buildId] })

/-- The inputs loop of `getCausalityResourceVersions`: the `json.Unmarshal`
error of a row's version payload is checked here and aborts the walk. -/
def causalityInputsPass (dir : WalkDir) (rows : List CausalityEdgeRow)
    (a : CausalityArena) : CausalityArena × Option String :=
  match rows with
  | [] => (a, none)
  | row :: rest =>
    match parseVersion row.version with
    | none => (a, some "unmarshal")
    | some ver =>
      let rv := match arenaFindRv a row.rcvId with
        | some rv => rv
        | none => ⟨row.resourceId, row.rcvId, row.resourceName, ver, [], []⟩
      let res := applyInputUpdater dir a rv row.buildId
      causalityInputsPass dir rest (arenaSetRv res.1 row.rcvId res.2)

/-- The outputs loop of `getCausalityResourceVersions`: here the
`json.Unmarshal` error is assigned to `err` but never inspected, so a
malformed version payload is skipped and the loop variable `version` keeps
the value of the previous iteration (initially the zero value). -/
def causalityOutputsPass (dir : WalkDir) (rows : List CausalityEdgeRow)
    (a : CausalityArena) (lastVersion : Version) : CausalityArena :=
  match rows with
  | [] => a
  | row :: rest =>
    let ver := (parseVersion row.version).getD lastVersion
    let rv := match arenaFindRv a row.rcvId with
      | some rv => rv
      | none => ⟨row.resourceId, row.rcvId, row.resourceName, ver, [], []⟩
    let res := applyOutputUpdater dir a rv row.buildId
    causalityOutputsPass dir rest (arenaSetRv res.1 row.rcvId res.2) ver

/-- Model of `getCausalityResourceVersions`: builds the build/job node map, seeds the
resource-version map with the root, runs the inputs pass (whose unmarshal
error is surfaced) and then the outputs pass (whose unmarshal error is
dropped).  Returns the arena as mutated so far together with the error, the
value-level image of Go's in-place pointer mutation. -/
def getCausalityResourceVersions (db : Db) (buildIDs : List Nat)
    (root : CausalityResourceVersion) (dir : WalkDir) :
    CausalityArena × Option String :=
  let a0 : CausalityArena :=
    ⟨causalityBuildNodes db buildIDs, [(root.resourceVersionId, root)]⟩
  let res := causalityInputsPass dir (causalityEdgeRows db db.buildInputs buildIDs) a0
  match res.2 with
  | some e => (res.1, some e)
  | none =>
    (causalityOutputsPass dir (causalityEdgeRows db db.buildOutputs buildIDs) res.1 [],
      none)

/-- Model of `resource.Causality`.  After the root rcv is loaded and unmarshalled, the
error of the downstream `getCausalityResourceVersions` call is assigned to
`err` and then overwritten — without being checked — by the upstream
`getCausalityBuilds` call, and the upstream `getCausalityResourceVersions`
error is likewise dead at `return root, true, nil`. -/
def causality (db : Db) (rid : Nat) (rName : String) (scopeId rcvID : Nat) :
    CausalityResourceVersion × Bool × Option String :=
  let root0 : CausalityResourceVersion := ⟨rid, rcvID, rName, [], [], []⟩
  match db.resourceConfigVersions.find?
      (fun v => v.id == rcvID && v.resourceConfigScopeId == scopeId) with
  | none => (root0, false, none)
  | some v =>
    match parseVersion v.version with
    | none => (root0, false, some "unmarshal")
    | some ver =>
      let root1 := { root0 with version := ver }
      let downIDs := causalityBuilds db rid (md5 v.version) .downstream
      let resDown := getCausalityResourceVersions db downIDs root1 .downstream
      let root2 := (arenaFindRv resDown.1 rcvID).getD root1
      let upIDs := causalityBuilds db rid (md5 v.version) .upstream
      let resUp := getCausalityResourceVersions db upIDs root2 .upstream
      let root3 := (arenaFindRv resUp.1 rcvID).getD root2
      (root3, true, none)

/-! ### Watcher subscriber pipeline (`WatchListAllJobs`)

`WatchListAllJobs` starts two goroutines per subscriber.  `watchEvents`
receives a batch from the subscriber channel, appends it to `pendingEvents`
under the mutex and calls `invalidate(dirty)` — a `select`/`default`
non-blocking send.  `sendEvents` blocks on `<-dirty`, swaps the buffer empty
under the mutex and hands the copy to the consumer channel.  The `dirty`
channel is created as `make(chan struct)`, i.e. *unbuffered*, so the
non-blocking send succeeds exactly when `sendEvents` is parked at `<-dirty`
and is silently dropped otherwise.  Events are identified by naturals;
each arriving notification carries one event. -/

/-- Program counter of the `sendEvents` goroutine. -/
inductive SenderPC where
  | waitingDirty
  | flush
  | sending (batch : List Nat)
  deriving Repr, DecidableEq

/-- State of one subscriber pipeline: notifications not yet handed to
`watchEvents` (in commit order), the `pendingEvents` buffer, the
`sendEvents` position, and the batches the consumer has received. -/
structure SubscriberState where
  incoming : List Nat
  pending : List Nat
  sender : SenderPC
  delivered : List (List Nat)
  deriving Repr, DecidableEq

/-- Scheduler choices: which enabled transition runs next. -/
inductive SubscriberChoice where
  | deliver  -- watchEvents receives the next notification, appends under the mutex, calls invalidate
  | flush    -- sendEvents, woken by dirty, copies and empties pendingEvents under the mutex
  | consume  -- the consumer receives the batch sendEvents is blocked on
  deriving Repr, DecidableEq

/-- One interleaving step; `none` when the chosen transition is not enabled.
The mutex makes append-plus-invalidate and the buffer swap atomic; the
rendezvous on the unbuffered `dirty` channel succeeds only against a parked
receiver. -/
def subscriberStep (s : SubscriberState) : SubscriberChoice → Option SubscriberState
  | .deliver =>
    match s.incoming with
    | [] => none
    | e :: rest =>
      let sender1 := match s.sender with
        | .waitingDirty => SenderPC.flush
        | pc => pc
      some { s with incoming := rest, pending := s.pending ++ [e], sender := sender1 }
  | .flush =>
    match s.sender with
    | .flush => some { s with pending := [], sender := .sending s.pending }
    | _ => none
  | .consume =>
    match s.sender with
    | .sending batch =>
      some { s with delivered := s.delivered ++ [batch], sender := .waitingDirty }
    | _ => none

/-- Run a schedule from a state; `none` when a chosen step is disabled. -/
def subscriberRun (s : SubscriberState) :
    List SubscriberChoice → Option SubscriberState
  | [] => some s
  | c :: cs => (subscriberStep s c).bind (fun s1 => subscriberRun s1 cs)

/-! ## Lemmas about the schedule bump -/

/-- A job row after the bump loop over the id list `l`. -/
def bumped (l : List Nat) (now : Nat) (j : JobRow) : JobRow :=
  if l.contains j.id then { j with scheduleRequested := now } else j

theorem bumped_cons (a : Nat) (l : List Nat) (now : Nat) (j : JobRow) :
    bumped l now (if j.id == a then { j with scheduleRequested := now } else j)
      = bumped (a :: l) now j := by
  by_cases hja : j.id = a
  · subst hja
    simp only [beq_self_eq_true, if_pos]
    by_cases hl : l.contains j.id <;>
      simp [bumped, hl, List.contains_cons]
  · have hb : (j.id == a) = false := by simpa using hja
    simp [bumped, hb, hja, List.contains_cons]

theorem foldl_bumpJob_eq (l : List Nat) (db : Db) (now : Nat) :
    l.foldl (fun acc j => bumpJob acc j now) db
      = { db with jobs := db.jobs.map (bumped l now) } := by
  induction l generalizing db with
  | nil =>
    show db = _
    have h1 : ∀ j ∈ db.jobs, bumped [] now j = id j := fun j _ => by simp [bumped]
    rw [List.map_congr_left h1, List.map_id]
  | cons a l ih =>
    show (l.foldl (fun acc j => bumpJob acc j now) (bumpJob db a now)) = _
    rw [ih (bumpJob db a now)]
    show ({ db with jobs := (db.jobs.map fun j =>
        if j.id == a then { j with scheduleRequested := now } else j).map (bumped l now) } : Db) = _
    rw [List.map_map]
    have h2 : ∀ j ∈ db.jobs,
        (bumped l now ∘ fun j =>
          if j.id == a then { j with scheduleRequested := now } else j) j
          = bumped (a :: l) now j := fun j _ => bumped_cons a l now j
    rw [List.map_congr_left h2]

theorem requestSchedule_eq (db : Db) (rid now : Nat) :
    requestScheduleForJobsUsingResource db rid now
      = { db with jobs := db.jobs.map (bumped (jobIdsUsingResource db rid) now) } :=
  foldl_bumpJob_eq _ db now

/-- Job `jobId` has a `job_inputs` row referencing resource `rid`. -/
def jobUsesResource (db : Db) (jobId rid : Nat) : Prop :=
  ∃ ji ∈ db.jobInputs, ji.jobId = jobId ∧ ji.resourceId = rid

instance (db : Db) (jobId rid : Nat) : Decidable (jobUsesResource db jobId rid) := by
  unfold jobUsesResource; infer_instance

theorem mem_jobIdsUsingResource (db : Db) (rid x : Nat) :
    x ∈ jobIdsUsingResource db rid ↔ jobUsesResource db x rid := by
  simp only [jobIdsUsingResource, mem_sortBy, List.mem_dedup, List.mem_map,
    List.mem_filter, jobUsesResource, beq_iff_eq]
  constructor
  · rintro ⟨ji, ⟨hmem, hrid⟩, hx⟩
    exact ⟨ji, hmem, hx, hrid⟩
  · rintro ⟨ji, hmem, hx, hrid⟩
    exact ⟨ji, ⟨hmem, hrid⟩, hx⟩

theorem jobIdsUsingResource_sorted (db : Db) (rid : Nat) :
    (jobIdsUsingResource db rid).Pairwise (· > ·) := by
  have hle : (jobIdsUsingResource db rid).Pairwise
      (fun a b => Nat.ble b a = true) := by
    apply pairwise_sortBy
    · intro x y z h1 h2
      simp only [Nat.ble_eq] at h1 h2 ⊢
      omega
    · intro x y
      simp only [Nat.ble_eq]
      omega
  have hnd : (jobIdsUsingResource db rid).Nodup :=
    ((sortBy_perm _ _).symm.nodup (List.nodup_dedup _))
  have := hle.and hnd
  refine this.imp ?_
  intro a b h
  rcases h with ⟨h1, h2⟩
  simp only [Nat.ble_eq] at h1
  omega

theorem bump_sets (db : Db) (rid now : Nat) :
    ∀ j ∈ (requestScheduleForJobsUsingResource db rid now).jobs,
      jobUsesResource db j.id rid → j.scheduleRequested = now := by
  rw [requestSchedule_eq]
  intro j hj huse
  obtain ⟨j0, hj0, rfl⟩ := List.mem_map.mp hj
  have hid : (bumped (jobIdsUsingResource db rid) now j0).id = j0.id := by
    unfold bumped
    split <;> rfl
  rw [hid] at huse
  have hmem : j0.id ∈ jobIdsUsingResource db rid :=
    (mem_jobIdsUsingResource db rid j0.id).mpr huse
  simp [bumped, hmem]

theorem pinUpsert_one_row (db : Db) (rid rcvID : Nat) :
    (pinUpsert db rid rcvID).2 = 1 := by
  unfold pinUpsert
  split <;> rfl

theorem pinVersion_success (db : Db) (rid rcvID now : Nat)
    (h : (pinVersion db rid rcvID now).2.1 = true) :
    pinVersion db rid rcvID now
      = (requestScheduleForJobsUsingResource
          { db with resourcePins := (pinUpsert db rid rcvID).1 } rid now, true, none) := by
  by_cases hcfg : db.resourcePins.any (fun p => p.resourceId == rid && p.config)
  · simp [pinVersion, hcfg] at h
  · simp [pinVersion, hcfg, pinUpsert_one_row]

theorem unpinVersion_success (db : Db) (rid now : Nat)
    (h : (unpinVersion db rid now).2 = none) :
    unpinVersion db rid now
      = (requestScheduleForJobsUsingResource
          { db with resourcePins := db.resourcePins.filter (fun p => !(p.resourceId == rid)) }
          rid now, none) := by
  by_cases ha : unpinAffected db rid = 1
  · simp [unpinVersion, ha]
  · simp [unpinVersion, ha] at h

theorem toggleVersion_success (db : Db) (rid rcvID : Nat) (enable : Bool) (now : Nat)
    (h : (toggleVersion db rid rcvID enable now).2 = none) :
    toggleVersion db rid rcvID enable now
      = (requestScheduleForJobsUsingResource
          { db with resourceDisabledVersions := (toggleStatement db rid rcvID enable).1 }
          rid now, none) := by
  by_cases ha : (toggleStatement db rid rcvID enable).2 = 1
  · simp [toggleVersion, ha]
  · simp [toggleVersion, ha] at h

theorem setScope_affecting (db : Db) (rid configId scopeId now : Nat)
    (h : 0 < (setResourceConfigScopeInTransaction db rid configId scopeId now).2) :
    setResourceConfigScopeInTransaction db rid configId scopeId now
      = (requestScheduleForJobsUsingResource
          { db with resources := db.resources.map fun r =>
              if scopeUpdateCond rid configId scopeId r then
                { r with resourceConfigId := some configId, resourceConfigScopeId := some scopeId }
              else r }
          rid now,
        db.resources.countP (fun r => scopeUpdateCond rid configId scopeId r)) := by
  by_cases ha : 0 < db.resources.countP (fun r => scopeUpdateCond rid configId scopeId r)
  · simp [setResourceConfigScopeInTransaction, ha]
  · simp [setResourceConfigScopeInTransaction, ha] at h

/-! ## Claim theorems -/

/-- C5: every successful `PinVersion`, `UnpinVersion`, `EnableVersion` /
`DisableVersion` (via `toggleVersion`) and row-affecting
`SetResourceConfigScope` call sets `schedule_requested = now()`, within its
transaction, for every job that has a `job_inputs` row referencing this
resource; and the update loop runs over exactly the distinct referencing job
ids in strictly descending `job_id` order. -/
theorem c5_schedule_bump :
    (∀ db rid, (jobIdsUsingResource db rid).Pairwise (· > ·)
      ∧ ∀ x, x ∈ jobIdsUsingResource db rid ↔ jobUsesResource db x rid)
    ∧ (∀ db rid rcvID now, (pinVersion db rid rcvID now).2.1 = true →
        ∀ j ∈ (pinVersion db rid rcvID now).1.jobs,
          jobUsesResource db j.id rid → j.scheduleRequested = now)
    ∧ (∀ db rid now, (unpinVersion db rid now).2 = none →
        ∀ j ∈ (unpinVersion db rid now).1.jobs,
          jobUsesResource db j.id rid → j.scheduleRequested = now)
    ∧ (∀ db rid rcvID enable now, (toggleVersion db rid rcvID enable now).2 = none →
        ∀ j ∈ (toggleVersion db rid rcvID enable now).1.jobs,
          jobUsesResource db j.id rid → j.scheduleRequested = now)
    ∧ (∀ db rid configId scopeId now,
        0 < (setResourceConfigScopeInTransaction db rid configId scopeId now).2 →
        ∀ j ∈ (setResourceConfigScopeInTransaction db rid configId scopeId now).1.jobs,
          jobUsesResource db j.id rid → j.scheduleRequested = now) := by
  refine ⟨fun db rid => ⟨jobIdsUsingResource_sorted db rid,
      fun x => mem_jobIdsUsingResource db rid x⟩, ?_, ?_, ?_, ?_⟩
  · intro db rid rcvID now h j hj huse
    rw [pinVersion_success db rid rcvID now h] at hj
    exact bump_sets _ rid now j hj huse
  · intro db rid now h j hj huse
    rw [unpinVersion_success db rid now h] at hj
    exact bump_sets _ rid now j hj huse
  · intro db rid rcvID enable now h j hj huse
    rw [toggleVersion_success db rid rcvID enable now h] at hj
    exact bump_sets _ rid now j hj huse
  · intro db rid configId scopeId now h j hj huse
    rw [setScope_affecting db rid configId scopeId now h] at hj
    exact bump_sets _ rid now j hj huse

/-- Concrete state for the C5 witness: job 7 takes resource 1 as input;
version 5 of scope 10 is currently disabled for resource 1, so
`EnableVersion` deletes exactly one row and succeeds. -/
def dbC5 : Db where
  builds := []
  resources := [⟨1, "r", some 3, some 10, none⟩]
  resourcePins := []
  resourceConfigVersions := [⟨5, 10, .obj [("ref", "abc")], none, 1⟩]
  resourceDisabledVersions := [⟨1, .obj [("ref", "abc")]⟩]
  jobs := [⟨7, "j", 0⟩]
  jobInputs := [⟨7, 1⟩]
  buildInputs := []
  buildOutputs := []
  buildPipes := []
  notifications := []

theorem c5_schedule_bump_witness :
    (toggleVersion dbC5 1 5 true 42).2 = none ∧
    ({ id := 7, name := "j", scheduleRequested := 42 } : JobRow).scheduleRequested = 42 :=
  ⟨by decide,
    c5_schedule_bump.2.2.2.1 dbC5 1 5 true 42 (by decide)
      { id := 7, name := "j", scheduleRequested := 42 } (by decide) (by decide)⟩

/-- The empty database. -/
def dbEmpty : Db := ⟨[], [], [], [], [], [], [], [], [], [], []⟩

/-- C2: Enable/Disable (via `toggleVersion`) and Unpin return
`NonOneRowAffectedError` — rolling the transaction back — whenever their
statement affects a number of rows different from one, so on success each
affects exactly one row; `PinVersion`'s upsert of a single `VALUES` row
always affects exactly one row (its `rowsAffected != 1` branch is dead). -/
theorem c2_non_one_row :
    (∀ db rid rcvID enable now, (toggleStatement db rid rcvID enable).2 ≠ 1 →
      toggleVersion db rid rcvID enable now
        = (db, some (.nonOneRowAffected (toggleStatement db rid rcvID enable).2)))
    ∧ (∀ db rid now, unpinAffected db rid ≠ 1 →
      unpinVersion db rid now
        = (db, some (.nonOneRowAffected (unpinAffected db rid))))
    ∧ (∀ db rid rcvID, (pinUpsert db rid rcvID).2 = 1) := by
  refine ⟨?_, ?_, fun db rid rcvID => pinUpsert_one_row db rid rcvID⟩
  · intro db rid rcvID enable now h
    simp [toggleVersion, h]
  · intro db rid now h
    simp [unpinVersion, h]

theorem c2_non_one_row_witness :
    (toggleStatement dbEmpty 1 2 true).2 = 0
    ∧ toggleVersion dbEmpty 1 2 true 0 = (dbEmpty, some (.nonOneRowAffected 0))
    ∧ unpinVersion dbEmpty 1 0 = (dbEmpty, some (.nonOneRowAffected 0)) :=
  ⟨by decide, c2_non_one_row.1 dbEmpty 1 2 true 0 (by decide),
    c2_non_one_row.2.1 dbEmpty 1 0 (by decide)⟩

/-- C3: on a resource pinned through config, `PinVersion` fails with
`PinnedThroughConfig` for any rcv id, leaves the whole database (and in
particular the pin row) unchanged, and `CurrentPinnedVersion` still reports
the config-pinned version. -/
theorem c3_pin_conflict (db : Db) (rid rcvID now : Nat) (p : PinRow) (v : Blob)
    (hfind : db.resourcePins.find? (fun q => q.resourceId == rid) = some p)
    (hcfg : p.config = true) (hver : p.version = some v) :
    pinVersion db rid rcvID now = (db, false, some .pinnedThroughConfig)
      ∧ currentPinnedVersion db rid = some v := by
  have hmem : p ∈ db.resourcePins := List.mem_of_find?_eq_some hfind
  have hpred := List.find?_some hfind
  have hany : db.resourcePins.any (fun q => q.resourceId == rid && q.config) = true :=
    List.any_eq_true.mpr ⟨p, hmem, by simp [hpred, hcfg]⟩
  constructor
  · simp [pinVersion, hany]
  · simp [currentPinnedVersion, scannedPin, hfind, hver, hcfg]

/-- Concrete state for the C3 witness: resource 1 pinned through config. -/
def dbC3 : Db :=
  { dbEmpty with
    resources := [⟨1, "r", some 3, some 10, none⟩],
    resourcePins := [⟨1, some (.obj [("v", "1")]), "", true⟩] }

theorem c3_pin_conflict_witness :
    pinVersion dbC3 1 9 0 = (dbC3, false, some .pinnedThroughConfig)
      ∧ currentPinnedVersion dbC3 1 = some (.obj [("v", "1")]) :=
  c3_pin_conflict dbC3 1 9 0 ⟨1, some (.obj [("v", "1")]), "", true⟩
    (.obj [("v", "1")]) (by decide) rfl rfl

/-- When every resource row with the target id already carries exactly the
given config and scope, the conditional update of `SetResourceConfigScope`
matches no row and the whole call is a no-op. -/
theorem setScope_noop (db : Db) (rid configId scopeId now : Nat)
    (h : ∀ r ∈ db.resources, r.id = rid →
      r.resourceConfigId = some configId ∧ r.resourceConfigScopeId = some scopeId) :
    setResourceConfigScopeInTransaction db rid configId scopeId now = (db, 0) := by
  have hcond : ∀ r ∈ db.resources, scopeUpdateCond rid configId scopeId r = false := by
    intro r hr
    unfold scopeUpdateCond
    by_cases hid : r.id = rid
    · obtain ⟨h1, h2⟩ := h r hr hid
      simp [hid, h1, h2]
    · simp [hid]
  have hcount : db.resources.countP (fun r => scopeUpdateCond rid configId scopeId r) = 0 :=
    List.countP_eq_zero.mpr (fun r hr => by simp [hcond r hr])
  have hmap : (db.resources.map fun r =>
      if scopeUpdateCond rid configId scopeId r then
        { r with resourceConfigId := some configId, resourceConfigScopeId := some scopeId }
      else r) = db.resources := by
    have hpt : ∀ r ∈ db.resources,
        (if scopeUpdateCond rid configId scopeId r then
          ({ r with resourceConfigId := some configId, resourceConfigScopeId := some scopeId } : ResourceRow)
        else r) = id r := fun r hr => by simp [hcond r hr]
    rw [List.map_congr_left hpt, List.map_id]
  simp [setResourceConfigScopeInTransaction, hcount, hmap]

/-- After any `SetResourceConfigScope` call, every resource row with the
target id carries the new config and scope ids. -/
theorem setScope_post (db : Db) (rid configId scopeId now : Nat) :
    ∀ r ∈ (setResourceConfigScope db rid configId scopeId now).resources,
      r.id = rid →
      r.resourceConfigId = some configId ∧ r.resourceConfigScopeId = some scopeId := by
  intro r hr hid
  have hres : (setResourceConfigScope db rid configId scopeId now).resources
      = db.resources.map (fun r =>
        if scopeUpdateCond rid configId scopeId r then
          { r with resourceConfigId := some configId, resourceConfigScopeId := some scopeId }
        else r) := by
    unfold setResourceConfigScope setResourceConfigScopeInTransaction
    by_cases hpos : 0 < db.resources.countP (fun r => scopeUpdateCond rid configId scopeId r)
    · simp [hpos, requestSchedule_eq]
    · simp [hpos]
  rw [hres] at hr
  obtain ⟨r0, hr0, rfl⟩ := List.mem_map.mp hr
  by_cases hc : scopeUpdateCond rid configId scopeId r0
  · simp [hc]
  · rw [if_neg hc] at hid ⊢
    unfold scopeUpdateCond at hc
    simp [hid] at hc
    exact ⟨hc.1.2, hc.2⟩

/-- C6: `SetResourceConfigScope` writes the resource row only when the
current config or scope is NULL or differs from the new scope's; in
particular, after a successful call with a scope, a repeated call with the
same scope affects zero rows, changes nothing and triggers no schedule
bump. -/
theorem c6_setScope_conditional :
    (∀ db rid configId scopeId now,
      (∀ r ∈ db.resources, r.id = rid →
        r.resourceConfigId = some configId ∧ r.resourceConfigScopeId = some scopeId) →
      setResourceConfigScopeInTransaction db rid configId scopeId now = (db, 0))
    ∧ (∀ db rid configId scopeId now now',
      setResourceConfigScopeInTransaction
          (setResourceConfigScope db rid configId scopeId now) rid configId scopeId now'
        = (setResourceConfigScope db rid configId scopeId now, 0)) := by
  refine ⟨fun db rid c s n h => setScope_noop db rid c s n h, ?_⟩
  intro db rid c s n n'
  exact setScope_noop _ rid c s n' (setScope_post db rid c s n)

/-- Concrete state for the C6 witness: the resource already carries config 3
and scope 10. -/
def dbC6 : Db :=
  { dbEmpty with resources := [⟨1, "r", some 3, some 10, none⟩] }

theorem c6_setScope_conditional_witness :
    setResourceConfigScopeInTransaction dbC6 1 3 10 5 = (dbC6, 0) :=
  c6_setScope_conditional.1 dbC6 1 3 10 5 (by decide)

/-- C8 (code bug): `UpdateMetadata` returns `(true, nil)` whenever the
statement executes, because the Go code checks the `Exec` error against
`sql.ErrNoRows` — which `Exec` never returns — instead of consulting the
affected-row count.  On an empty ledger no row matches, yet the call still
reports `true`. -/
theorem c8_updateMetadata_bug :
    (∀ db scopeId version metadata, (updateMetadata db scopeId version metadata).2 = true)
    ∧ updateMetadataMatches dbEmpty 10 (.obj [("ref", "abc")]) = 0
    ∧ updateMetadata dbEmpty 10 (.obj [("ref", "abc")]) "m" = (dbEmpty, true) :=
  ⟨fun _ _ _ _ => rfl, rfl, rfl⟩

/-- Starting state for the C1 counterexample: one resource, no builds yet. -/
def dbC1start : Db :=
  { dbEmpty with resources := [⟨1, "r", some 3, some 10, none⟩] }

/-- C1 counterexample: after an automatic check build is created, completes
externally, and a second one is created, the builds table holds a completed
row followed by a running one.  The probe of the next `CreateBuild` scans
only the first matching row — the completed one — so the call creates yet
another build even though a build of this resource with `completed = false`
exists, contradicting the claim that it must return `(nil, false, nil)` and
write nothing. -/
theorem c1_counterexample :
    (∃ b ∈ ((createBuild (completeBuild (createBuild dbC1start 1 false).1 1) 1 false).1).builds,
        b.resourceId = some 1 ∧ b.completed = false)
    ∧ (createBuild ((createBuild (completeBuild (createBuild dbC1start 1 false).1 1) 1 false).1) 1 false).2.2 = true
    ∧ (createBuild ((createBuild (completeBuild (createBuild dbC1start 1 false).1 1) 1 false).1) 1 false).1
        ≠ (createBuild (completeBuild (createBuild dbC1start 1 false).1 1) 1 false).1 := by
  refine ⟨⟨⟨2, "check", some 1, none, false, false⟩, ?_, ?_, ?_⟩, ?_, ?_⟩ <;> decide

/-- C1 as amended: when `manuallyTriggered = false` and the build row the
probe scans — the first row in table order with this `resource_id` — is not
completed, `CreateBuild` returns `(nil, false, nil)` and performs no writes:
no build row is inserted, `resources.build_id` is unchanged and no
notification is posted (the state is returned untouched). -/
theorem c1_createBuild_scanned_incomplete_noop (db : Db) (rid : Nat) (b : BuildRow)
    (hfind : db.builds.find? (fun b => b.resourceId == some rid) = some b)
    (hcomp : b.completed = false) :
    createBuild db rid false = (db, none, false) := by
  simp [createBuild, hfind, hcomp]

/-- Concrete state for the C1 witness: a single running check build. -/
def dbC1w : Db :=
  { dbEmpty with
    resources := [⟨1, "r", some 3, some 10, some 1⟩],
    builds := [⟨1, "check", some 1, none, false, false⟩] }

theorem c1_createBuild_scanned_incomplete_noop_witness :
    createBuild dbC1w 1 false = (dbC1w, none, false) :=
  c1_createBuild_scanned_incomplete_noop dbC1w 1
    ⟨1, "check", some 1, none, false, false⟩ (by decide) rfl

/-- C9 (code bug evidence): with the `dirty` channel allocated unbuffered
(`make(chan struct)` in `WatchListAllJobs`), the interleaving
deliver–flush–deliver–consume of two notifications reaches a quiescent state
in which the consumer received the single batch `[1]`, event `2` sits in
`pendingEvents` forever (no transition is enabled any more), and the
concatenation of the delivered batches differs from the emitted event
sequence `[1, 2]` — the second `invalidate` fired while `sendEvents` was
blocked handing the first batch to the consumer, so its non-blocking send
was dropped. -/
theorem c9_coalescing_lost_wakeup :
    subscriberRun ⟨[1, 2], [], .waitingDirty, []⟩
        [.deliver, .flush, .deliver, .consume]
      = some ⟨[], [2], .waitingDirty, [[1]]⟩
    ∧ subscriberStep ⟨[], [2], .waitingDirty, [[1]]⟩ .deliver = none
    ∧ subscriberStep ⟨[], [2], .waitingDirty, [[1]]⟩ .flush = none
    ∧ subscriberStep ⟨[], [2], .waitingDirty, [[1]]⟩ .consume = none
    ∧ ([[1]] : List (List Nat)).flatten ≠ [1, 2] := by
  refine ⟨rfl, rfl, rfl, rfl, by decide⟩

/-! ## Pagination lemmas -/

/-- In a sorted list, an element that is a lower bound for the whole list is
among the first `n` elements for any `n ≥ 1`. -/
theorem mem_take_of_min (le : α → α → Prop) (l : List α) (x : α)
    (hx : x ∈ l) (hsorted : l.Pairwise le)
    (hanti : ∀ a ∈ l, le a x → le x a → a = x)
    (hmin : ∀ y ∈ l, le x y)
    (n : Nat) (hn : 1 ≤ n) : x ∈ l.take n := by
  cases l with
  | nil => cases hx
  | cons a t =>
    cases n with
    | zero => omega
    | succ n =>
      rcases List.mem_cons.mp hx with hxa | hxt
      · rw [hxa]
        exact List.mem_cons_self a (t.take n)
      · have hax : le a x := (List.pairwise_cons.mp hsorted).1 x hxt
        have hxa : le x a := hmin a (List.mem_cons_self a t)
        have hxeq := hanti a (List.mem_cons_self a t) hax hxa
        rw [← hxeq]
        exact List.mem_cons_self a (t.take n)

theorem eq_of_checkOrder_eq {l : List VersionsRow} {a b : VersionsRow}
    (hnd : (l.map (fun v => v.checkOrder)).Nodup)
    (ha : a ∈ l) (hb : b ∈ l) (h : a.checkOrder = b.checkOrder) : a = b :=
  List.inj_on_of_nodup_map hnd ha hb h

theorem nodup_co_sublist {l1 l2 : List VersionsRow} (h : l1.Sublist l2)
    (hnd : (l2.map (fun v => v.checkOrder)).Nodup) :
    (l1.map (fun v => v.checkOrder)).Nodup :=
  (h.map (fun v => v.checkOrder)).nodup hnd

theorem nodup_co_perm {l1 l2 : List VersionsRow} (h : l1.Perm l2)
    (hnd : (l2.map (fun v => v.checkOrder)).Nodup) :
    (l1.map (fun v => v.checkOrder)).Nodup :=
  ((h.map (fun v => v.checkOrder)).symm).nodup hnd

theorem sortBy_coDescLe_pairwise (l : List VersionsRow) :
    (sortBy coDescLe l).Pairwise (fun a b => b.checkOrder ≤ a.checkOrder) := by
  have h := pairwise_sortBy coDescLe
    (fun x y z h1 h2 => by
      simp only [coDescLe, Nat.ble_eq] at h1 h2 ⊢; omega)
    (fun x y => by simp only [coDescLe, Nat.ble_eq]; omega) l
  exact h.imp (fun hab => by simpa [coDescLe, Nat.ble_eq] using hab)

theorem sortBy_coAscLe_pairwise (l : List VersionsRow) :
    (sortBy coAscLe l).Pairwise (fun a b => a.checkOrder ≤ b.checkOrder) := by
  have h := pairwise_sortBy coAscLe
    (fun x y z h1 h2 => by
      simp only [coAscLe, Nat.ble_eq] at h1 h2 ⊢; omega)
    (fun x y => by simp only [coAscLe, Nat.ble_eq]; omega) l
  exact h.imp (fun hab => by simpa [coAscLe, Nat.ble_eq] using hab)

theorem pairwise_strict_desc_of_nodup (l : List VersionsRow)
    (hs : l.Pairwise (fun a b => b.checkOrder ≤ a.checkOrder))
    (hnd : (l.map (fun v => v.checkOrder)).Nodup) :
    l.Pairwise (fun a b => b.checkOrder < a.checkOrder) := by
  have hne : l.Pairwise (fun a b => a.checkOrder ≠ b.checkOrder) :=
    List.pairwise_map.mp hnd
  exact (hs.and hne).imp (fun h => by omega)

theorem pairwise_strict_asc_of_nodup (l : List VersionsRow)
    (hs : l.Pairwise (fun a b => a.checkOrder ≤ b.checkOrder))
    (hnd : (l.map (fun v => v.checkOrder)).Nodup) :
    l.Pairwise (fun a b => a.checkOrder < b.checkOrder) := by
  have hne : l.Pairwise (fun a b => a.checkOrder ≠ b.checkOrder) :=
    List.pairwise_map.mp hnd
  exact (hs.and hne).imp (fun h => by omega)

/-- A descending sort followed by `take` is strictly descending when the
check orders are duplicate-free. -/
theorem sortDesc_take_strict (l : List VersionsRow) (n : Nat)
    (hnd : (l.map (fun v => v.checkOrder)).Nodup) :
    ((sortBy coDescLe l).take n).Pairwise (fun a b => b.checkOrder < a.checkOrder) := by
  have hsorted := (sortBy_coDescLe_pairwise l).sublist (List.take_sublist n _)
  have hnd2 : (((sortBy coDescLe l).take n).map (fun v => v.checkOrder)).Nodup :=
    nodup_co_sublist (List.take_sublist n _) (nodup_co_perm (sortBy_perm coDescLe l) hnd)
  exact pairwise_strict_desc_of_nodup _ hsorted hnd2

/-- A descending sort is strictly descending when the check orders are
duplicate-free. -/
theorem sortDesc_strict (l : List VersionsRow)
    (hnd : (l.map (fun v => v.checkOrder)).Nodup) :
    (sortBy coDescLe l).Pairwise (fun a b => b.checkOrder < a.checkOrder) :=
  pairwise_strict_desc_of_nodup _ (sortBy_coDescLe_pairwise l)
    (nodup_co_perm (sortBy_perm coDescLe l) hnd)

/-- C7: within a scope whose `check_order` values are duplicate-free (the
ledger invariant), `Versions` always delivers its rows in strictly
descending `check_order`; moreover, in the `from`-cursor case the inner
query is strictly ascending and the delivered page is exactly its
reversal. -/
theorem c7_versions_descending (db : Db) (rid : Nat) (page : Page) (filter : Version)
    (hnd : ((scopeVersionRows db rid).map (fun v => v.checkOrder)).Nodup) :
    (versionsRows db rid page filter).Pairwise (fun a b => b.checkOrder < a.checkOrder)
    ∧ ∀ fromId, page.from? = some fromId →
        (versionsFromInner db rid fromId page.limit filter).Pairwise
            (fun a b => a.checkOrder < b.checkOrder)
        ∧ versionsRows db rid page filter
            = (versionsFromInner db rid fromId page.limit filter).reverse := by
  obtain ⟨pf, pt, lim⟩ := page
  have hndf : ((filteredScopeRows db rid filter).map (fun v => v.checkOrder)).Nodup :=
    nodup_co_sublist (List.filter_sublist _) hnd
  cases pf with
  | some f =>
    have hndb : ((versionsFromBound db rid f filter).map (fun v => v.checkOrder)).Nodup :=
      nodup_co_sublist (List.filter_sublist _) hndf
    have hndInner : ((versionsFromInner db rid f lim filter).map
        (fun v => v.checkOrder)).Nodup :=
      nodup_co_sublist (List.take_sublist _ _)
        (nodup_co_perm (sortBy_perm coAscLe _) hndb)
    have hAsc : (versionsFromInner db rid f lim filter).Pairwise
        (fun a b => a.checkOrder < b.checkOrder) :=
      pairwise_strict_asc_of_nodup _
        ((sortBy_coAscLe_pairwise _).sublist (List.take_sublist _ _)) hndInner
    have hDesc : (versionsRows db rid ⟨some f, pt, lim⟩ filter).Pairwise
        (fun a b => b.checkOrder < a.checkOrder) := by
      show (sortBy coDescLe (versionsFromInner db rid f lim filter)).Pairwise _
      exact sortDesc_strict _ hndInner
    have hRevDesc : ((versionsFromInner db rid f lim filter).reverse).Pairwise
        (fun a b => b.checkOrder < a.checkOrder) :=
      List.pairwise_reverse.mpr hAsc
    have hperm : (versionsRows db rid ⟨some f, pt, lim⟩ filter).Perm
        ((versionsFromInner db rid f lim filter).reverse) := by
      show (sortBy coDescLe (versionsFromInner db rid f lim filter)).Perm _
      exact (sortBy_perm coDescLe _).trans (List.reverse_perm _).symm
    haveI : IsAntisymm VersionsRow (fun a b => b.checkOrder < a.checkOrder) :=
      ⟨fun a b h1 h2 => False.elim (by omega)⟩
    refine ⟨hDesc, ?_⟩
    rintro fromId h
    injection h with h
    subst h
    exact ⟨hAsc, List.eq_of_perm_of_sorted hperm hDesc hRevDesc⟩
  | none =>
    cases pt with
    | some t =>
      have hndb : ((versionsToBound db rid t filter).map (fun v => v.checkOrder)).Nodup :=
        nodup_co_sublist (List.filter_sublist _) hndf
      refine ⟨?_, ?_⟩
      · show ((sortBy coDescLe (versionsToBound db rid t filter)).take lim).Pairwise _
        exact sortDesc_take_strict _ lim hndb
      · rintro fromId h
        exact Option.noConfusion h
    | none =>
      refine ⟨?_, ?_⟩
      · show ((sortBy coDescLe (filteredScopeRows db rid filter)).take lim).Pairwise _
        exact sortDesc_take_strict _ lim hndf
      · rintro fromId h
        exact Option.noConfusion h

/-- Concrete ledger shared by the pagination claims: resource 1, scope 10,
three versions with check orders 1 < 2 < 3 (ids 1, 2, 3). -/
def dbPaging : Db :=
  { dbEmpty with
    resources := [⟨1, "r", some 3, some 10, none⟩],
    resourceConfigVersions :=
      [⟨1, 10, .obj [("n", "1")], none, 1⟩,
       ⟨2, 10, .obj [("n", "2")], none, 2⟩,
       ⟨3, 10, .obj [("n", "3")], none, 3⟩] }

theorem c7_versions_descending_witness :
    (versionsRows dbPaging 1 ⟨some 2, none, 2⟩ []).Pairwise
      (fun a b => b.checkOrder < a.checkOrder) :=
  (c7_versions_descending dbPaging 1 ⟨some 2, none, 2⟩ [] (by decide)).1

/-- C4 counterexample: with ledger rows at check orders 1 < 2 < 3 (ids 1, 2,
3), the page `from = 2` *contains* row 2 itself, as does the page `to = 2` —
the SQL comparisons are `check_order >= cursor` and `check_order <= cursor`,
both inclusive, so the cursor row is not excluded as the claim states. -/
theorem c4_counterexample :
    versions dbPaging 1 ⟨some 2, none, 2⟩ []
      = some [⟨3, .obj [("n", "3")], none, 3, true⟩, ⟨2, .obj [("n", "2")], none, 2, true⟩]
    ∧ versions dbPaging 1 ⟨none, some 2, 2⟩ []
      = some [⟨2, .obj [("n", "2")], none, 2, true⟩, ⟨1, .obj [("n", "1")], none, 1, true⟩]
    ∧ 2 ∈ ((versionsRows dbPaging 1 ⟨some 2, none, 2⟩ []).map (fun v => v.id))
    ∧ 2 ∈ ((versionsRows dbPaging 1 ⟨none, some 2, 2⟩ []).map (fun v => v.id)) := by
  refine ⟨?_, ?_, ?_, ?_⟩ <;> decide

/-- C4 as amended: the `from` (resp. `to`) page parameter is an *inclusive*
bound — by the `check_order` of the row whose id is the cursor — so when the
cursor row lies in the resource's scope, matches the filter, the scope's
check orders are duplicate-free and `limit ≥ 1`, the cursor row itself
appears in the returned page of both cursor cases. -/
theorem c4_cursor_row_included (db : Db) (rid cursorId limit : Nat) (filter : Version)
    (row : VersionsRow)
    (hnd : ((scopeVersionRows db rid).map (fun v => v.checkOrder)).Nodup)
    (hmem : row ∈ filteredScopeRows db rid filter)
    (hco : checkOrderOf db cursorId = some row.checkOrder)
    (hlim : 1 ≤ limit) :
    row ∈ versionsRows db rid ⟨some cursorId, none, limit⟩ filter
      ∧ row ∈ versionsRows db rid ⟨none, some cursorId, limit⟩ filter := by
  have hndf : ((filteredScopeRows db rid filter).map (fun v => v.checkOrder)).Nodup :=
    nodup_co_sublist (List.filter_sublist _) hnd
  constructor
  · -- from-case
    have hbound : row ∈ versionsFromBound db rid cursorId filter := by
      refine List.mem_filter.mpr ⟨hmem, ?_⟩
      rw [hco]
      simp [Nat.ble_eq]
    have hndb : ((versionsFromBound db rid cursorId filter).map
        (fun v => v.checkOrder)).Nodup :=
      nodup_co_sublist (List.filter_sublist _) hndf
    have hndSorted : (((sortBy coAscLe (versionsFromBound db rid cursorId filter))).map
        (fun v => v.checkOrder)).Nodup :=
      nodup_co_perm (sortBy_perm coAscLe _) hndb
    have hmin : ∀ y ∈ sortBy coAscLe (versionsFromBound db rid cursorId filter),
        row.checkOrder ≤ y.checkOrder := by
      intro y hy
      have hyb := (mem_sortBy coAscLe _ y).mp hy
      have hpred := (List.mem_filter.mp hyb).2
      rw [hco] at hpred
      simpa [Nat.ble_eq] using hpred
    have htake : row ∈ versionsFromInner db rid cursorId limit filter := by
      show row ∈ (sortBy coAscLe (versionsFromBound db rid cursorId filter)).take limit
      refine mem_take_of_min (fun a b => a.checkOrder ≤ b.checkOrder) _ row
        ((mem_sortBy coAscLe _ row).mpr hbound)
        (sortBy_coAscLe_pairwise _) ?_ hmin limit hlim
      intro a ha h1 h2
      exact eq_of_checkOrder_eq hndSorted ha ((mem_sortBy coAscLe _ row).mpr hbound)
        (Nat.le_antisymm h1 h2)
    show row ∈ sortBy coDescLe (versionsFromInner db rid cursorId limit filter)
    exact (mem_sortBy coDescLe _ row).mpr htake
  · -- to-case
    have hbound : row ∈ versionsToBound db rid cursorId filter := by
      refine List.mem_filter.mpr ⟨hmem, ?_⟩
      rw [hco]
      simp [Nat.ble_eq]
    have hndb : ((versionsToBound db rid cursorId filter).map
        (fun v => v.checkOrder)).Nodup :=
      nodup_co_sublist (List.filter_sublist _) hndf
    have hndSorted : (((sortBy coDescLe (versionsToBound db rid cursorId filter))).map
        (fun v => v.checkOrder)).Nodup :=
      nodup_co_perm (sortBy_perm coDescLe _) hndb
    have hmax : ∀ y ∈ sortBy coDescLe (versionsToBound db rid cursorId filter),
        y.checkOrder ≤ row.checkOrder := by
      intro y hy
      have hyb := (mem_sortBy coDescLe _ y).mp hy
      have hpred := (List.mem_filter.mp hyb).2
      rw [hco] at hpred
      simpa [Nat.ble_eq] using hpred
    show row ∈ (sortBy coDescLe (versionsToBound db rid cursorId filter)).take limit
    refine mem_take_of_min (fun a b => b.checkOrder ≤ a.checkOrder) _ row
      ((mem_sortBy coDescLe _ row).mpr hbound)
      (sortBy_coDescLe_pairwise _) ?_ hmax limit hlim
    intro a ha h1 h2
    exact eq_of_checkOrder_eq hndSorted ha ((mem_sortBy coDescLe _ row).mpr hbound)
      (Nat.le_antisymm h2 h1)

theorem c4_cursor_row_included_witness :
    (⟨2, .obj [("n", "2")], none, 2, true⟩ : VersionsRow)
        ∈ versionsRows dbPaging 1 ⟨some 2, none, 2⟩ []
    ∧ (⟨2, .obj [("n", "2")], none, 2, true⟩ : VersionsRow)
        ∈ versionsRows dbPaging 1 ⟨none, some 2, 2⟩ [] :=
  c4_cursor_row_included dbPaging 1 2 2 [] ⟨2, .obj [("n", "2")], none, 2, true⟩
    (by decide) (by decide) (by decide) (by decide)

/-- C10: (i) `getCausalityResourceVersions` can only surface an error from
its inputs pass — the outputs pass assigns the `json.Unmarshal` error but
never inspects it, so a malformed stored version in an output row does not
surface; (ii) once the root rcv loads and unmarshals, `Causality` returns
`(root, true, nil)` unconditionally: the error of the downstream
`getCausalityResourceVersions` call is overwritten without being checked
before the upstream walk, and the upstream call's error is dead at the
final return. -/
theorem c10_causality_swallows_errors :
    (∀ db buildIDs root dir,
      (getCausalityResourceVersions db buildIDs root dir).2
        = (causalityInputsPass dir (causalityEdgeRows db db.buildInputs buildIDs)
            ⟨causalityBuildNodes db buildIDs, [(root.resourceVersionId, root)]⟩).2)
    ∧ (∀ db rid rName scopeId rcvID v,
        db.resourceConfigVersions.find?
            (fun w => w.id == rcvID && w.resourceConfigScopeId == scopeId) = some v →
        (parseVersion v.version).isSome = true →
        (causality db rid rName scopeId rcvID).2.1 = true
          ∧ (causality db rid rName scopeId rcvID).2.2 = none) := by
  constructor
  · intro db buildIDs root dir
    unfold getCausalityResourceVersions
    cases hres : (causalityInputsPass dir (causalityEdgeRows db db.buildInputs buildIDs)
        ⟨causalityBuildNodes db buildIDs, [(root.resourceVersionId, root)]⟩).2 with
    | none => simp [hres]
    | some e => simp [hres]
  · intro db rid rName scopeId rcvID v hfind hparse
    obtain ⟨ver, hver⟩ := Option.isSome_iff_exists.mp hparse
    simp [causality, hfind, hver]

/-- Concrete state for the C10 witness: build 100 of job 50 consumed both
the root version (resource 1, rcv 5) and a *malformed* stored version
(resource 2, rcv 6), so the downstream
`getCausalityResourceVersions` fails on the unmarshal — yet `Causality`
reports `(root, true, nil)`. -/
def dbC10 : Db :=
  { dbEmpty with
    resources := [⟨1, "r", some 3, some 10, none⟩, ⟨2, "s", some 4, some 20, none⟩],
    resourceConfigVersions :=
      [⟨5, 10, .obj [("v", "1")], none, 1⟩, ⟨6, 20, .malformed "xx", none, 1⟩],
    builds := [⟨100, "b", none, some 50, true, false⟩],
    jobs := [⟨50, "j", 0⟩],
    buildInputs := [⟨100, 1, .obj [("v", "1")]⟩, ⟨100, 2, .malformed "xx"⟩] }

theorem c10_causality_swallows_errors_witness :
    (getCausalityResourceVersions dbC10
        (causalityBuilds dbC10 1 (md5 (.obj [("v", "1")])) .downstream)
        ⟨1, 5, "r", [("v", "1")], [], []⟩ .downstream).2 = some "unmarshal"
    ∧ (causality dbC10 1 "r" 10 5).2.1 = true
    ∧ (causality dbC10 1 "r" 10 5).2.2 = none :=
  ⟨by decide,
    (c10_causality_swallows_errors.2 dbC10 1 "r" 10 5 ⟨5, 10, .obj [("v", "1")], none, 1⟩
      (by decide) (by decide)).1,
    (c10_causality_swallows_errors.2 dbC10 1 "r" 10 5 ⟨5, 10, .obj [("v", "1")], none, 1⟩
      (by decide) (by decide)).2⟩
